import Mathlib

/-!
Verification of the whisper-toggle audio pipeline.

This file gives a shallow embedding, in Lean 4, of the algorithmic core of the
whisper-toggle repository and proves (or refutes) the specification claims
about it.  The embedded functions are translated from the Python sources:

* `whisper_toggle/main.py` — the push-to-talk transcribe worker
  (`audio_callback` / `transcribe_worker` / `resample_audio` of
  `ToggleTranscriber`);
* `whisper_toggle_gui.py` — the continuous-mode overlap deduplication
  (`_continuous_processing_loop`) and the clipboard output fallback chain
  (`copy_to_clipboard`);
* `transcriber_simple.py` — device/format negotiation (`start_recording`),
  the VAD parameter mapping (`transcribe_audio`), and `apply_gain`;
* `audio_test_standalone.py` — the peak/RMS level classification loop
  (`try_audio_capture`).

Audio samples are modelled as exact rationals (the Python code works with
floats obtained by dividing 16-bit integers by 32768.0); byte strings are
modelled as lists of naturals below 256; Python `int()` truncation toward
zero is modelled explicitly by `pyInt`.
-/

namespace WhisperToggle

/-! ## Python-semantics helpers -/

/-- Python `int()` applied to an exact rational: truncation toward zero. -/
def pyInt (q : ℚ) : ℤ :=
  if 0 ≤ q then ⌊q⌋ else -⌊-q⌋

theorem pyInt_intCast (z : ℤ) : pyInt (z : ℚ) = z := by
  unfold pyInt
  by_cases h : (0 : ℚ) ≤ (z : ℚ)
  · simp [h]
  · simp only [h, if_false]
    rw [← Int.cast_neg, Int.floor_intCast, neg_neg]

/-! ## The transcribe worker of `whisper_toggle/main.py`

`ToggleTranscriber` constants: `whisper_sample_rate = 16000`,
`min_buffer_size = int(self.whisper_sample_rate * 0.75)`, the forced cut
fires above `whisper_sample_rate * 30` accumulated samples and then keeps
`audio_buffer[self.whisper_sample_rate * 10:]`.
-/

/-- `self.whisper_sample_rate` in `ToggleTranscriber.__init__`. -/
def whisperSampleRate : ℕ := 16000

/-- `min_buffer_size = int(self.whisper_sample_rate * 0.75)`
(`transcribe_worker`, main.py line 350). -/
def minBufferSize : ℕ := (pyInt ((whisperSampleRate : ℚ) * 0.75)).toNat

/-- The forced-cut trigger `self.whisper_sample_rate * 30`
(main.py line 394). -/
def maxSegmentSamples : ℕ := whisperSampleRate * 30

/-- The forced-cut slice index `self.whisper_sample_rate * 10`
(main.py line 395): the retained buffer is `audio_buffer[16000 * 10:]`. -/
def forcedCutDrop : ℕ := whisperSampleRate * 10

theorem minBufferSize_eq : minBufferSize = 12000 := by
  norm_num [minBufferSize, pyInt, whisperSampleRate]
  rfl

theorem maxSegmentSamples_eq : maxSegmentSamples = 480000 := by
  norm_num [maxSegmentSamples, whisperSampleRate]

theorem forcedCutDrop_eq : forcedCutDrop = 160000 := by
  norm_num [forcedCutDrop, whisperSampleRate]

/-- `np.max(np.abs(chunk))` over a chunk of normalized samples: the largest
absolute value occurring in the list (`0` for the empty list, which the code
never produces — chunks have 4096 frames). -/
def maxAbs (l : List ℚ) : ℚ :=
  l.foldr (fun x m => max |x| m) 0

theorem maxAbs_nil : maxAbs [] = 0 := rfl

theorem maxAbs_cons (x : ℚ) (l : List ℚ) :
    maxAbs (x :: l) = max |x| (maxAbs l) := rfl

theorem maxAbs_nonneg (l : List ℚ) : 0 ≤ maxAbs l := by
  induction l with
  | nil => simp [maxAbs_nil]
  | cons x xs ih => rw [maxAbs_cons]; exact le_trans ih (le_max_right _ _)

theorem maxAbs_append (l₁ l₂ : List ℚ) :
    maxAbs (l₁ ++ l₂) = max (maxAbs l₁) (maxAbs l₂) := by
  induction l₁ with
  | nil => simp [maxAbs_nil, max_eq_right (maxAbs_nonneg l₂)]
  | cons x xs ih => simp [maxAbs_cons, ih, max_assoc]

theorem maxAbs_replicate_zero (n : ℕ) :
    maxAbs (List.replicate n (0 : ℚ)) = 0 := by
  induction n with
  | zero => rfl
  | succ k ih => rw [List.replicate_succ, maxAbs_cons, ih]; simp

theorem le_maxAbs_of_mem {x : ℚ} {l : List ℚ} (h : x ∈ l) : |x| ≤ maxAbs l := by
  induction l with
  | nil => cases h
  | cons y ys ih =>
      rw [maxAbs_cons]
      rcases List.mem_cons.mp h with h' | h'
      · subst h'; exact le_max_left _ _
      · exact le_trans (ih h') (le_max_right _ _)

/-- The per-chunk silence update of `audio_callback` (main.py lines 318-323):
`audio_level = np.max(np.abs(audio_data))`; if `audio_level < 0.002` the
silence counter is incremented, otherwise it is reset to `0`. -/
def silenceUpdate (counter : ℕ) (chunk : List ℚ) : ℕ :=
  if maxAbs chunk < 0.002 then counter + 1 else 0

/-- The mutable state shared by `audio_callback` and `transcribe_worker`:
the accumulated `audio_buffer` and the `silence_counter`. -/
structure WorkerState where
  buffer : List ℚ
  silence : ℕ
deriving DecidableEq

/-- One synchronous step of the pipeline on one captured chunk
(main.py lines 318-323 and 344-401): the silence counter is updated from
the chunk level, the chunk is appended to `audio_buffer`, and then
`transcribe_worker` applies its cut policy.  The second component is the
sample array handed to `self.model.transcribe` (`none` when no
transcription is dispatched for this chunk).

The external model's output is abstracted by the oracle `textNonTrivial`:
whether the transcription of the dispatched buffer passes the guard
`text and len(text.strip()) > 1` (line 362).  When it does, the worker
types the text and then evaluates `if self.notification_id:` (line 371) —
but `ToggleTranscriber` has no `notification_id` attribute (only its
`SmartIndicator` does; line 378 correctly uses
`self.indicator.notification_id`), so an `AttributeError` is raised there,
caught only by the worker's blanket `except Exception` (line 400), and the
resets `audio_buffer = []` / `self.silence_counter = 0` (lines 391-392)
are SKIPPED: the buffer and counter keep their values.  When the guard
fails, or the peak floor fails, execution reaches the resets normally. -/
def workerStep (thresh : ℕ) (textNonTrivial : List ℚ → Bool)
    (st : WorkerState) (chunk : List ℚ) : WorkerState × Option (List ℚ) :=
  if minBufferSize < (st.buffer ++ chunk).length ∧
      thresh ≤ silenceUpdate st.silence chunk then
    if 0.002 < maxAbs (st.buffer ++ chunk) then
      if textNonTrivial (st.buffer ++ chunk) then
        (⟨st.buffer ++ chunk, silenceUpdate st.silence chunk⟩,
          some (st.buffer ++ chunk))
      else
        (⟨[], 0⟩, some (st.buffer ++ chunk))
    else
      (⟨[], 0⟩, none)
  else if maxSegmentSamples < (st.buffer ++ chunk).length then
    (⟨(st.buffer ++ chunk).drop forcedCutDrop, silenceUpdate st.silence chunk⟩,
      none)
  else
    (⟨st.buffer ++ chunk, silenceUpdate st.silence chunk⟩, none)

/-- Run the worker over a list of captured chunks, collecting every sample
array dispatched to the transcription model, in order. -/
def runWorker (thresh : ℕ) (textNonTrivial : List ℚ → Bool)
    (st : WorkerState) : List (List ℚ) → WorkerState × List (List ℚ)
  | [] => (st, [])
  | chunk :: rest =>
    let p := workerStep thresh textNonTrivial st chunk
    let r := runWorker thresh textNonTrivial p.1 rest
    (r.1, (match p.2 with | some a => [a] | none => []) ++ r.2)

/-! ### Branch lemmas for the worker step -/

theorem workerStep_cut_loud_skip_reset (thresh : ℕ)
    (tNT : List ℚ → Bool) (st : WorkerState) (ch : List ℚ)
    (h1 : minBufferSize < (st.buffer ++ ch).length ∧
      thresh ≤ silenceUpdate st.silence ch)
    (h2 : (0.002 : ℚ) < maxAbs (st.buffer ++ ch))
    (h3 : tNT (st.buffer ++ ch) = true) :
    workerStep thresh tNT st ch =
      (⟨st.buffer ++ ch, silenceUpdate st.silence ch⟩,
        some (st.buffer ++ ch)) := by
  unfold workerStep
  rw [if_pos h1, if_pos h2, if_pos h3]

theorem workerStep_cut_loud_reset (thresh : ℕ)
    (tNT : List ℚ → Bool) (st : WorkerState) (ch : List ℚ)
    (h1 : minBufferSize < (st.buffer ++ ch).length ∧
      thresh ≤ silenceUpdate st.silence ch)
    (h2 : (0.002 : ℚ) < maxAbs (st.buffer ++ ch))
    (h3 : tNT (st.buffer ++ ch) = false) :
    workerStep thresh tNT st ch = (⟨[], 0⟩, some (st.buffer ++ ch)) := by
  unfold workerStep
  rw [if_pos h1, if_pos h2, if_neg (by rw [h3]; simp)]

theorem workerStep_cut_quiet (thresh : ℕ)
    (tNT : List ℚ → Bool) (st : WorkerState) (ch : List ℚ)
    (h1 : minBufferSize < (st.buffer ++ ch).length ∧
      thresh ≤ silenceUpdate st.silence ch)
    (h2 : ¬ (0.002 : ℚ) < maxAbs (st.buffer ++ ch)) :
    workerStep thresh tNT st ch = (⟨[], 0⟩, none) := by
  unfold workerStep
  rw [if_pos h1, if_neg h2]

theorem workerStep_forced (thresh : ℕ)
    (tNT : List ℚ → Bool) (st : WorkerState) (ch : List ℚ)
    (h1 : ¬ (minBufferSize < (st.buffer ++ ch).length ∧
      thresh ≤ silenceUpdate st.silence ch))
    (h2 : maxSegmentSamples < (st.buffer ++ ch).length) :
    workerStep thresh tNT st ch =
      (⟨(st.buffer ++ ch).drop forcedCutDrop, silenceUpdate st.silence ch⟩,
        none) := by
  unfold workerStep
  rw [if_neg h1, if_pos h2]

theorem workerStep_no_cut (thresh : ℕ)
    (tNT : List ℚ → Bool) (st : WorkerState) (ch : List ℚ)
    (h1 : ¬ (minBufferSize < (st.buffer ++ ch).length ∧
      thresh ≤ silenceUpdate st.silence ch))
    (h2 : ¬ maxSegmentSamples < (st.buffer ++ ch).length) :
    workerStep thresh tNT st ch =
      (⟨st.buffer ++ ch, silenceUpdate st.silence ch⟩, none) := by
  unfold workerStep
  rw [if_neg h1, if_neg h2]

theorem workerStep_buffer_suffix (thresh : ℕ) (tNT : List ℚ → Bool)
    (st : WorkerState) (ch : List ℚ) :
    (workerStep thresh tNT st ch).1.buffer <:+ (st.buffer ++ ch) := by
  by_cases h1 : minBufferSize < (st.buffer ++ ch).length ∧
      thresh ≤ silenceUpdate st.silence ch
  · by_cases h2 : (0.002 : ℚ) < maxAbs (st.buffer ++ ch)
    · cases h3 : tNT (st.buffer ++ ch) with
      | true => rw [workerStep_cut_loud_skip_reset thresh tNT st ch h1 h2 h3]
      | false =>
          rw [workerStep_cut_loud_reset thresh tNT st ch h1 h2 h3]
          exact List.nil_suffix
    · rw [workerStep_cut_quiet thresh tNT st ch h1 h2]
      exact List.nil_suffix
  · by_cases h2 : maxSegmentSamples < (st.buffer ++ ch).length
    · rw [workerStep_forced thresh tNT st ch h1 h2]
      exact List.drop_suffix _ _
    · rw [workerStep_no_cut thresh tNT st ch h1 h2]

theorem workerStep_out_eq (thresh : ℕ) (tNT : List ℚ → Bool)
    (st : WorkerState) (ch : List ℚ)
    (a : List ℚ) (h : (workerStep thresh tNT st ch).2 = some a) :
    a = st.buffer ++ ch := by
  by_cases h1 : minBufferSize < (st.buffer ++ ch).length ∧
      thresh ≤ silenceUpdate st.silence ch
  · by_cases h2 : (0.002 : ℚ) < maxAbs (st.buffer ++ ch)
    · cases h3 : tNT (st.buffer ++ ch) with
      | true =>
          rw [workerStep_cut_loud_skip_reset thresh tNT st ch h1 h2 h3] at h
          exact (Option.some_inj.mp h).symm
      | false =>
          rw [workerStep_cut_loud_reset thresh tNT st ch h1 h2 h3] at h
          exact (Option.some_inj.mp h).symm
    · rw [workerStep_cut_quiet thresh tNT st ch h1 h2] at h
      cases h
  · by_cases h2 : maxSegmentSamples < (st.buffer ++ ch).length
    · rw [workerStep_forced thresh tNT st ch h1 h2] at h
      cases h
    · rw [workerStep_no_cut thresh tNT st ch h1 h2] at h
      cases h

/-- Every sample array that `runWorker` dispatches to the model is a suffix
of `X ++ p` where `X` bounds the buffer at entry and `p` is a prefix of
the future sample stream captured up to the moment of dispatch.  In
particular the worker never reaches back before the start of its current
buffer.  This holds whatever the external transcriptions are, including
through the reset-skipping error path. -/
theorem runWorker_inputs_bounded (thresh : ℕ) (tNT : List ℚ → Bool) :
    ∀ (cs : List (List ℚ)) (st : WorkerState) (X : List ℚ),
      st.buffer <:+ X →
      ∀ out ∈ (runWorker thresh tNT st cs).2,
        ∃ p, p <+: cs.flatten ∧ out <:+ (X ++ p) := by
  intro cs
  induction cs with
  | nil =>
      intro st X _ out hout
      simp [runWorker] at hout
  | cons c rest ih =>
      intro st X hX out hout
      have hbuf : (workerStep thresh tNT st c).1.buffer <:+ X ++ c := by
        apply List.IsSuffix.trans (workerStep_buffer_suffix thresh tNT st c)
        obtain ⟨t, ht⟩ := hX
        exact ⟨t, by rw [← List.append_assoc, ht]⟩
      simp only [runWorker, List.mem_append] at hout
      rcases hout with h | h
      · have hsome : (workerStep thresh tNT st c).2 = some out := by
          rcases hs : (workerStep thresh tNT st c).2 with _ | a
          · rw [hs] at h; simp at h
          · rw [hs] at h; simp at h; rw [h]
        have hout_eq : out = st.buffer ++ c :=
          workerStep_out_eq thresh tNT st c out hsome
        refine ⟨c, ⟨rest.flatten, by simp⟩, ?_⟩
        rw [hout_eq]
        obtain ⟨t, ht⟩ := hX
        exact ⟨t, by rw [← List.append_assoc, ht]⟩
      · obtain ⟨p, hp, hsfx⟩ :=
          ih (workerStep thresh tNT st c).1 (X ++ c) hbuf out h
        obtain ⟨t, ht⟩ := hp
        refine ⟨c ++ p, ⟨t, by simp [ht, List.append_assoc]⟩, ?_⟩
        rw [List.append_assoc] at hsfx
        exact hsfx

/-! ### Claim C3 -/

/-- C3 (amended): processing one chunk, a transcription is dispatched
exactly when the consecutive-silence run is at least the configured
threshold AND the accumulated sample count is STRICTLY GREATER than
`min_buffer_size = 12000` samples (0.75 s at 16 kHz) AND the segment's
peak exceeds the 0.002 audible floor; the forced 30 s cut dispatches
nothing.  The buffer and silence counter are reset after the cut only when
the transcription text is trivial or the peak floor failed: when the
transcription yields non-trivial text, the `AttributeError` raised by
`self.notification_id` (main.py line 371, an attribute `ToggleTranscriber`
does not have) is swallowed by the worker's `except Exception` (line 400)
and the resets at lines 391-392 are skipped, so the dispatched segment
stays in the buffer. -/
theorem c3_cut_dispatch_condition (thresh : ℕ) (tNT : List ℚ → Bool)
    (st : WorkerState) (ch : List ℚ) (hch : ch ≠ []) :
    ((workerStep thresh tNT st ch).2 ≠ none ↔
      (minBufferSize < (st.buffer ++ ch).length ∧
        thresh ≤ silenceUpdate st.silence ch) ∧
      (0.002 : ℚ) < maxAbs (st.buffer ++ ch)) ∧
    ((workerStep thresh tNT st ch).1 = ⟨[], 0⟩ ↔
      (minBufferSize < (st.buffer ++ ch).length ∧
        thresh ≤ silenceUpdate st.silence ch) ∧
      ¬ ((0.002 : ℚ) < maxAbs (st.buffer ++ ch) ∧
        tNT (st.buffer ++ ch) = true)) := by
  have hb : st.buffer ++ ch ≠ [] := fun h =>
    hch (List.append_eq_nil.mp h).2
  by_cases h1 : minBufferSize < (st.buffer ++ ch).length ∧
      thresh ≤ silenceUpdate st.silence ch
  · by_cases h2 : (0.002 : ℚ) < maxAbs (st.buffer ++ ch)
    · cases h3 : tNT (st.buffer ++ ch) with
      | true =>
          rw [workerStep_cut_loud_skip_reset thresh tNT st ch h1 h2 h3]
          constructor
          · exact iff_of_true (by simp) ⟨h1, h2⟩
          · refine iff_of_false ?_ ?_
            · intro hcontra
              exact hb (congrArg WorkerState.buffer hcontra)
            · intro hcontra
              exact hcontra.2 ⟨h2, rfl⟩
      | false =>
          rw [workerStep_cut_loud_reset thresh tNT st ch h1 h2 h3]
          constructor
          · exact iff_of_true (by simp) ⟨h1, h2⟩
          · refine iff_of_true rfl ⟨h1, ?_⟩
            intro hcontra
            cases hcontra.2
    · rw [workerStep_cut_quiet thresh tNT st ch h1 h2]
      constructor
      · exact iff_of_false (by simp) (fun hcontra => h2 hcontra.2)
      · exact iff_of_true rfl ⟨h1, fun hcontra => h2 hcontra.1⟩
  · constructor
    · refine iff_of_false ?_ (fun hcontra => h1 hcontra.1)
      by_cases h2 : maxSegmentSamples < (st.buffer ++ ch).length
      · rw [workerStep_forced thresh tNT st ch h1 h2]
        simp
      · rw [workerStep_no_cut thresh tNT st ch h1 h2]
        simp
    · refine iff_of_false ?_ (fun hcontra => h1 hcontra.1)
      by_cases h2 : maxSegmentSamples < (st.buffer ++ ch).length
      · rw [workerStep_forced thresh tNT st ch h1 h2]
        intro hcontra
        have hdrop := congrArg WorkerState.buffer hcontra
        have hle := List.drop_eq_nil_iff.mp hdrop
        rw [maxSegmentSamples_eq] at h2
        rw [forcedCutDrop_eq] at hle
        omega
      · rw [workerStep_no_cut thresh tNT st ch h1 h2]
        intro hcontra
        exact hb (congrArg WorkerState.buffer hcontra)

/-- C3 witness: a concrete instantiation of the dispatch/reset
characterization. -/
theorem c3_cut_dispatch_condition_witness :
    ([ (0 : ℚ) ] ≠ []) ∧
    (((workerStep 8 (fun _ => true) ⟨[], 0⟩ [0]).2 ≠ none ↔
      (minBufferSize < (([] : List ℚ) ++ [0]).length ∧
        8 ≤ silenceUpdate 0 [0]) ∧
      (0.002 : ℚ) < maxAbs (([] : List ℚ) ++ [0])) ∧
    ((workerStep 8 (fun _ => true) ⟨[], 0⟩ [0]).1 = ⟨[], 0⟩ ↔
      (minBufferSize < (([] : List ℚ) ++ [0]).length ∧
        8 ≤ silenceUpdate 0 [0]) ∧
      ¬ ((0.002 : ℚ) < maxAbs (([] : List ℚ) ++ [0]) ∧
        (fun (_ : List ℚ) => true) (([] : List ℚ) ++ [0]) = true))) :=
  ⟨by decide, c3_cut_dispatch_condition 8 (fun _ => true) ⟨[], 0⟩ [0]
    (by decide)⟩

/-- C3 counterexample: at exactly `12000` accumulated samples (exactly
0.75 s at 16 kHz) with the silence run at the threshold, the code does NOT
cut and does NOT dispatch — `transcribe_worker` requires
`len(audio_buffer) > min_buffer_size`, strictly.  The claim ("at least
0.75 seconds") asserts a cut and a dispatch here. -/
theorem c3_counterexample :
    8 ≤ silenceUpdate 7 [0] ∧
    minBufferSize ≤ (List.replicate 11998 (0 : ℚ) ++ [1/2] ++ [0]).length ∧
    (0.002 : ℚ) < maxAbs (List.replicate 11998 (0 : ℚ) ++ [1/2] ++ [0]) ∧
    (workerStep 8 (fun _ => false)
      ⟨List.replicate 11998 (0 : ℚ) ++ [1/2], 7⟩ [0]).2 = none ∧
    (workerStep 8 (fun _ => false)
      ⟨List.replicate 11998 (0 : ℚ) ++ [1/2], 7⟩ [0]).1.buffer ≠ [] := by
  have hs : silenceUpdate 7 [0] = 8 := by norm_num [silenceUpdate, maxAbs]
  have hlen : ((List.replicate 11998 (0 : ℚ) ++ [1/2]) ++ [0]).length = 12000 := by
    rw [List.length_append, List.length_append, List.length_replicate]
    norm_num
  have h1 : ¬ (minBufferSize <
      ((List.replicate 11998 (0 : ℚ) ++ [1/2]) ++ [0]).length ∧
      8 ≤ silenceUpdate 7 [0]) := by
    rw [hlen, minBufferSize_eq]
    intro hc
    exact absurd hc.1 (lt_irrefl _)
  have h3 : ¬ (maxSegmentSamples <
      ((List.replicate 11998 (0 : ℚ) ++ [1/2]) ++ [0]).length) := by
    rw [hlen, maxSegmentSamples_eq]
    omega
  have hstep := workerStep_no_cut 8 (fun _ => false)
    ⟨List.replicate 11998 (0 : ℚ) ++ [1/2], 7⟩ [0] h1 h3
  refine ⟨hs.ge, ?_, ?_, ?_, ?_⟩
  · rw [minBufferSize_eq, hlen]
  · rw [maxAbs_append, maxAbs_append, maxAbs_replicate_zero]
    norm_num [maxAbs]
    rw [show |(1/2 : ℚ)| = 1/2 from abs_of_pos (by norm_num)]
    norm_num
  · rw [hstep]
  · rw [hstep]
    show (List.replicate 11998 (0 : ℚ) ++ [1/2]) ++ [0] ≠ []
    intro h
    exact List.cons_ne_nil 0 [] (List.append_eq_nil.mp h).2

/-! ### Claim C7 -/

/-- C7: when the cut condition fires but the segment's peak magnitude never
exceeded the minimum audible threshold `0.002`, the segment is discarded
without dispatching any transcription, and both the buffer and the silence
counter are reset (main.py lines 352-392: the `max_vol > 0.002` guard
around `self.model.transcribe` is false, so execution reaches
`audio_buffer = []` and `self.silence_counter = 0` with no exception
possible on this path). -/
theorem c7_silent_segment_discarded (thresh : ℕ) (tNT : List ℚ → Bool)
    (st : WorkerState) (ch : List ℚ)
    (hcut : minBufferSize < (st.buffer ++ ch).length ∧
      thresh ≤ silenceUpdate st.silence ch)
    (hquiet : maxAbs (st.buffer ++ ch) ≤ 0.002) :
    (workerStep thresh tNT st ch).2 = none ∧
    (workerStep thresh tNT st ch).1 = ⟨[], 0⟩ := by
  rw [workerStep_cut_quiet thresh tNT st ch hcut (not_lt.mpr hquiet)]
  exact ⟨rfl, rfl⟩

/-- C7 witness: a pure-zero buffer of 12001 samples (cut condition met)
yields no transcription and a full reset of buffer and silence counter. -/
theorem c7_silent_segment_discarded_witness :
    (minBufferSize < (List.replicate 12000 (0 : ℚ) ++ [0]).length ∧
      8 ≤ silenceUpdate 7 [0]) ∧
    maxAbs (List.replicate 12000 (0 : ℚ) ++ [0]) ≤ 0.002 ∧
    ((workerStep 8 (fun _ => true) ⟨List.replicate 12000 (0 : ℚ), 7⟩ [0]).2 =
      none ∧
     (workerStep 8 (fun _ => true) ⟨List.replicate 12000 (0 : ℚ), 7⟩ [0]).1 =
      ⟨[], 0⟩) := by
  have hcut : minBufferSize < (List.replicate 12000 (0 : ℚ) ++ [0]).length ∧
      8 ≤ silenceUpdate 7 [0] := by
    constructor
    · rw [minBufferSize_eq, List.length_append, List.length_replicate]
      norm_num
    · norm_num [silenceUpdate, maxAbs]
  have hquiet : maxAbs (List.replicate 12000 (0 : ℚ) ++ [0]) ≤ 0.002 := by
    rw [maxAbs_append, maxAbs_replicate_zero]
    norm_num [maxAbs]
  exact ⟨hcut, hquiet,
    c7_silent_segment_discarded 8 (fun _ => true)
      ⟨List.replicate 12000 (0 : ℚ), 7⟩ [0] hcut hquiet⟩

/-! ### Claim C1 -/

/-- C1 (amended): when the forced cut fires (accumulated samples strictly
exceed 30 s at 16 kHz while the silence cut did not fire), the retained
buffer is `audio_buffer[16000*10:]` — the code discards exactly the OLDEST
10 s (160000 samples) and retains everything after them (about 20 s at the
trigger point) as the seed of the next segment — and no discarded sample
reappears in any subsequent transcription input: every later dispatched
array is a suffix of the retained samples followed by a prefix of the audio
captured afterwards, whatever the external transcription results are. -/
theorem c1_forced_cut_retention (thresh : ℕ) (tNT : List ℚ → Bool)
    (st : WorkerState) (ch : List ℚ)
    (h1 : ¬ (minBufferSize < (st.buffer ++ ch).length ∧
      thresh ≤ silenceUpdate st.silence ch))
    (h2 : maxSegmentSamples < (st.buffer ++ ch).length) :
    (workerStep thresh tNT st ch).1.buffer =
      (st.buffer ++ ch).drop forcedCutDrop ∧
    ∀ future,
      ∀ out ∈ (runWorker thresh tNT (workerStep thresh tNT st ch).1 future).2,
      ∃ p, p <+: future.flatten ∧
        out <:+ ((st.buffer ++ ch).drop forcedCutDrop ++ p) := by
  have hbr : (workerStep thresh tNT st ch).1.buffer =
      (st.buffer ++ ch).drop forcedCutDrop := by
    rw [workerStep_forced thresh tNT st ch h1 h2]
  refine ⟨hbr, ?_⟩
  intro future out hout
  have hsfx : (workerStep thresh tNT st ch).1.buffer <:+
      (st.buffer ++ ch).drop forcedCutDrop := by
    rw [hbr]
  exact runWorker_inputs_bounded thresh tNT future (workerStep thresh tNT st ch).1
    ((st.buffer ++ ch).drop forcedCutDrop) hsfx out hout

/-- C1 witness: the forced-cut characterization instantiated on a concrete
480001-sample buffer. -/
theorem c1_forced_cut_retention_witness :
    (¬ (minBufferSize < (List.replicate 480000 (0 : ℚ) ++ [0]).length ∧
      8 ≤ silenceUpdate 0 [0])) ∧
    maxSegmentSamples < (List.replicate 480000 (0 : ℚ) ++ [0]).length ∧
    ((workerStep 8 (fun _ => true)
        ⟨List.replicate 480000 (0 : ℚ), 0⟩ [0]).1.buffer =
      (List.replicate 480000 (0 : ℚ) ++ [0]).drop forcedCutDrop ∧
     ∀ future, ∀ out ∈ (runWorker 8 (fun _ => true)
        (workerStep 8 (fun _ => true)
          ⟨List.replicate 480000 (0 : ℚ), 0⟩ [0]).1 future).2,
        ∃ p, p <+: future.flatten ∧
          out <:+ ((List.replicate 480000 (0 : ℚ) ++ [0]).drop forcedCutDrop ++
            p)) := by
  have hs : silenceUpdate 0 [0] = 1 := by norm_num [silenceUpdate, maxAbs]
  have h1 : ¬ (minBufferSize < (List.replicate 480000 (0 : ℚ) ++ [0]).length ∧
      8 ≤ silenceUpdate 0 [0]) := by
    rw [hs]
    intro hc
    omega
  have h2 : maxSegmentSamples < (List.replicate 480000 (0 : ℚ) ++ [0]).length := by
    rw [maxSegmentSamples_eq, List.length_append, List.length_replicate]
    norm_num
  exact ⟨h1, h2,
    c1_forced_cut_retention 8 (fun _ => true)
      ⟨List.replicate 480000 (0 : ℚ), 0⟩ [0] h1 h2⟩

/-- C1 counterexample: on a 480001-sample buffer the forced cut retains
`audio_buffer[160000:]` — 320001 samples, everything but the oldest 10 s —
and NOT the trailing 10 s (160000 samples) that the claim asserts. -/
theorem c1_counterexample :
    maxSegmentSamples < (List.replicate 480000 (0 : ℚ) ++ [0]).length ∧
    (workerStep 8 (fun _ => true)
      ⟨List.replicate 480000 (0 : ℚ), 0⟩ [0]).1.buffer =
      List.replicate 320001 (0 : ℚ) ∧
    (workerStep 8 (fun _ => true)
      ⟨List.replicate 480000 (0 : ℚ), 0⟩ [0]).1.buffer ≠
      (List.replicate 480000 (0 : ℚ) ++ [0]).drop
        ((List.replicate 480000 (0 : ℚ) ++ [0]).length - forcedCutDrop) := by
  have hb : List.replicate 480000 (0 : ℚ) ++ [0] =
      List.replicate 480001 (0 : ℚ) := by
    rw [← List.replicate_succ']
  have hs : silenceUpdate 0 [0] = 1 := by norm_num [silenceUpdate, maxAbs]
  have h1 : ¬ (minBufferSize < (List.replicate 480000 (0 : ℚ) ++ [0]).length ∧
      8 ≤ silenceUpdate 0 [0]) := by
    rw [hs]
    intro hc
    omega
  have h2 : maxSegmentSamples < (List.replicate 480000 (0 : ℚ) ++ [0]).length := by
    rw [maxSegmentSamples_eq, List.length_append, List.length_replicate]
    norm_num
  have hstep := workerStep_forced 8 (fun _ => true)
    ⟨List.replicate 480000 (0 : ℚ), 0⟩ [0] h1 h2
  have hbuf : (workerStep 8 (fun _ => true)
      ⟨List.replicate 480000 (0 : ℚ), 0⟩ [0]).1.buffer =
      List.replicate 320001 (0 : ℚ) := by
    rw [hstep]
    dsimp only
    rw [hb, forcedCutDrop_eq, List.drop_replicate]
  refine ⟨h2, hbuf, ?_⟩
  rw [hbuf]
  intro hcontra
  have hlen := congrArg List.length hcontra
  rw [List.length_replicate, List.length_drop, List.length_append,
    List.length_replicate, forcedCutDrop_eq] at hlen
  norm_num at hlen
/-! ## Resampling: `ToggleTranscriber.resample_audio` (main.py lines 301-309)

The code computes `number_of_samples = int(len(audio_data) * target_sr /
orig_sr)` and calls `scipy.signal.resample(audio_data, number_of_samples)`.
The scipy resampler is an external library function; its documented contract
(used here as a hypothesis) is that it returns exactly the requested number
of samples.  The sample values it produces are irrelevant to the claim, so
the resampler is a parameter constrained only by that contract. -/

/-- `resample_audio(self, audio_data, orig_sr, target_sr)`: identity when
the rates agree, otherwise the external resampler invoked with
`int(len(audio_data) * target_sr / orig_sr)` requested samples. -/
def resample_audio (resampler : List ℚ → ℕ → List ℚ) (audioData : List ℚ)
    (origSr targetSr : ℕ) : List ℚ :=
  if origSr = targetSr then audioData
  else resampler audioData
    (pyInt ((audioData.length * targetSr : ℕ) / (origSr : ℚ))).toNat

/-- The scipy contract: `signal.resample(x, num)` returns `num` samples. -/
def ResamplerContract (resampler : List ℚ → ℕ → List ℚ) : Prop :=
  ∀ x n, (resampler x n).length = n

/-- A trivial resampler satisfying the length contract, used to exhibit
concrete runs. -/
def padTruncResampler (x : List ℚ) (n : ℕ) : List ℚ :=
  (x ++ List.replicate n 0).take n

theorem padTruncResampler_contract : ResamplerContract padTruncResampler := by
  intro x n
  unfold padTruncResampler
  rw [List.length_take, List.length_append, List.length_replicate]
  omega

theorem pyInt_natCast_div (a b : ℕ) (hb : b ≠ 0) :
    (pyInt ((a : ℚ) / (b : ℚ))).toNat = a / b := by
  have hpos : (0 : ℚ) ≤ (a : ℚ) / (b : ℚ) := by positivity
  unfold pyInt
  rw [if_pos hpos]
  rw [Rat.floor_natCast_div_natCast, ← Int.natCast_div, Int.toNat_natCast]

/-! ### Claim C6 -/

/-- C6 (amended): for any resampler satisfying the scipy length contract,
`resample_audio` to 16 kHz produces `int(len * 16000 / origRate)` samples —
`int()` truncates, so the length is the FLOOR of `len * 16000 / origRate`,
not its rounding — and resampling a 16 kHz input to 16 kHz returns the
input unchanged. -/
theorem c6_resample_length (resampler : List ℚ → ℕ → List ℚ)
    (hr : ResamplerContract resampler) :
    (∀ (audioData : List ℚ) (origSr : ℕ), origSr ≠ 0 →
      (resample_audio resampler audioData origSr 16000).length =
        audioData.length * 16000 / origSr) ∧
    (∀ audioData : List ℚ,
      resample_audio resampler audioData 16000 16000 = audioData) := by
  constructor
  · intro audioData origSr h0
    unfold resample_audio
    by_cases he : origSr = 16000
    · subst he
      rw [if_pos rfl, Nat.mul_div_cancel _ (by norm_num)]
    · rw [if_neg he, hr, pyInt_natCast_div _ _ h0]
  · intro audioData
    unfold resample_audio
    rw [if_pos rfl]

/-- C6 witness: the resample length/identity theorem instantiated with a
concrete contract-satisfying resampler. -/
theorem c6_resample_length_witness :
    ResamplerContract padTruncResampler ∧
    ((∀ (audioData : List ℚ) (origSr : ℕ), origSr ≠ 0 →
      (resample_audio padTruncResampler audioData origSr 16000).length =
        audioData.length * 16000 / origSr) ∧
    (∀ audioData : List ℚ,
      resample_audio padTruncResampler audioData 16000 16000 = audioData)) :=
  ⟨padTruncResampler_contract,
    c6_resample_length padTruncResampler padTruncResampler_contract⟩

/-- C6 counterexample: a 3-sample input at 32 kHz resampled to 16 kHz gets
`int(3 * 16000 / 32000) = int(1.5) = 1` output sample, while the claim's
`round(len * 16000 / origRate) = round(1.5) = 2`. -/
theorem c6_counterexample :
    (resample_audio padTruncResampler [1, 2, 3] 32000 16000).length = 1 ∧
    ((resample_audio padTruncResampler [1, 2, 3] 32000 16000).length : ℤ) ≠
      round ((((([1, 2, 3] : List ℚ).length * 16000 : ℕ)) : ℚ) / 32000) := by
  have h1 : (resample_audio padTruncResampler [1, 2, 3] 32000 16000).length
      = 1 := by
    unfold resample_audio
    rw [if_neg (by norm_num), padTruncResampler_contract,
      pyInt_natCast_div _ _ (by norm_num)]
    rfl
  have h2 : round ((((([1, 2, 3] : List ℚ).length * 16000 : ℕ)) : ℚ) / 32000)
      = 2 := by
    norm_num [round_eq]
  exact ⟨h1, by rw [h1, h2]; norm_num⟩

/-! ## VAD parameter mapping: `transcribe_audio` (transcriber_simple.py)

Lines 296-308: `min_silence_ms = int(100 + (silence_threshold * 900))` and
`no_speech_thresh = max(0.1, min(0.9, audio_threshold * 10))`. -/

/-- `min_silence_ms = int(100 + (silence_threshold * 900))`
(transcriber_simple.py line 303). -/
def minSilenceMs (silenceThreshold : ℚ) : ℤ :=
  pyInt (100 + silenceThreshold * 900)

/-- `no_speech_thresh = max(0.1, min(0.9, audio_threshold * 10))`
(transcriber_simple.py line 306). -/
def noSpeechThresh (audioThreshold : ℚ) : ℚ :=
  max 0.1 (min 0.9 (audioThreshold * 10))

/-! ### Claim C5 -/

/-- C5 (amended): for a normalized `silence_threshold` in `[0, 1]` the
minimum-silence parameter is `int(100 + t * 900)` — the integer TRUNCATION
of the linear map, so it lies in `[100 ms, 1000 ms]` and is within one unit
below `100 + t * 900`, but equals the exact linear value only when
`t * 900` is an integer — and the no-speech threshold is exactly
`clamp(audio_threshold * 10, 0.1, 0.9)`: it always lies in `[0.1, 0.9]` and
equals `audio_threshold * 10` whenever that product is inside the range. -/
theorem c5_vad_parameter_mapping (t a : ℚ) (h0 : 0 ≤ t) (h1 : t ≤ 1) :
    (100 ≤ minSilenceMs t ∧ minSilenceMs t ≤ 1000) ∧
    ((minSilenceMs t : ℚ) ≤ 100 + t * 900 ∧
      100 + t * 900 < (minSilenceMs t : ℚ) + 1) ∧
    ((1/10 : ℚ) ≤ noSpeechThresh a ∧ noSpeechThresh a ≤ 9/10) ∧
    ((1/10 : ℚ) ≤ a * 10 → a * 10 ≤ 9/10 → noSpeechThresh a = a * 10) := by
  have hq0 : (0 : ℚ) ≤ 100 + t * 900 := by nlinarith
  have hms : minSilenceMs t = ⌊(100 + t * 900 : ℚ)⌋ := by
    unfold minSilenceMs pyInt
    rw [if_pos hq0]
  refine ⟨⟨?_, ?_⟩, ⟨?_, ?_⟩, ⟨?_, ?_⟩, ?_⟩
  · rw [hms]
    rw [Int.le_floor]
    push_cast
    nlinarith
  · rw [hms]
    have : ⌊(100 + t * 900 : ℚ)⌋ ≤ ⌊(1000 : ℚ)⌋ :=
      Int.floor_le_floor (by nlinarith)
    simpa using this
  · rw [hms]
    exact Int.floor_le _
  · rw [hms]
    exact Int.lt_floor_add_one _
  · unfold noSpeechThresh
    norm_num
  · unfold noSpeechThresh
    refine max_le (by norm_num) ?_
    exact le_trans (min_le_left _ _) (by norm_num)
  · intro hlo hhi
    unfold noSpeechThresh
    rw [min_eq_right (by linarith [hhi] : a * 10 ≤ (0.9 : ℚ))]
    rw [max_eq_right (by linarith [hlo] : (0.1 : ℚ) ≤ a * 10)]

/-- C5 witness: the parameter-mapping theorem at `t = 1/2`, `a = 1/20`. -/
theorem c5_vad_parameter_mapping_witness :
    (0 : ℚ) ≤ 1/2 ∧ (1/2 : ℚ) ≤ 1 ∧
    ((100 ≤ minSilenceMs (1/2) ∧ minSilenceMs (1/2) ≤ 1000) ∧
    ((minSilenceMs (1/2) : ℚ) ≤ 100 + (1/2) * 900 ∧
      100 + (1/2) * 900 < (minSilenceMs (1/2) : ℚ) + 1) ∧
    ((1/10 : ℚ) ≤ noSpeechThresh (1/20) ∧ noSpeechThresh (1/20) ≤ 9/10) ∧
    ((1/10 : ℚ) ≤ (1/20) * 10 → (1/20 : ℚ) * 10 ≤ 9/10 →
      noSpeechThresh (1/20) = (1/20) * 10)) :=
  ⟨by norm_num, by norm_num,
    c5_vad_parameter_mapping (1/2) (1/20) (by norm_num) (by norm_num)⟩

/-- C5 counterexample: at `silence_threshold = 1/1000` the code passes
`int(100 + 0.9) = 100` milliseconds, which differs from the claim's exact
linear value `100 + (1/1000) * 900 = 100.9`. -/
theorem c5_counterexample :
    minSilenceMs (1/1000) = 100 ∧
    (minSilenceMs (1/1000) : ℚ) ≠ 100 + (1/1000) * 900 := by
  have h : minSilenceMs (1/1000) = 100 := by
    unfold minSilenceMs pyInt
    rw [if_pos (by norm_num)]
    rw [show (100 + (1/1000 : ℚ) * 900) = ((1009 : ℕ) : ℚ) / ((10 : ℕ) : ℚ) by
      push_cast; ring]
    rw [Rat.floor_natCast_div_natCast]
    norm_num
  refine ⟨h, ?_⟩
  rw [h]
  norm_num

/-! ## Device/format negotiation: `start_recording` (transcriber_simple.py)

Lines 84-123: a prioritized list of `arecord` command lines is built (four
using the smart-detected device string, then two default-device fallbacks);
each is spawned in turn, and the first whose probe succeeds is selected,
recording `int(cmd[4])` (sample rate) and `int(cmd[6])` (channel count).
The probe itself ("the process is still alive 0.2 s after spawn", which the
spec describes as "yields nonzero bytes from an initial probe read") is an
external-process predicate, abstracted as an oracle on command lines. -/

/-- One `arecord` command line, exactly as assembled in `start_recording`:
`['arecord', '-f', 'S16_LE', '-r', rate, '-c', channels]`, with an optional
trailing `-D device`; the rate string sits at index 4 and the channel-count
string at index 6 in both shapes. -/
def mkArecordCmd (rate channels : String) (dev : Option String) : List String :=
  ["arecord", "-f", "S16_LE", "-r", rate, "-c", channels] ++
    (match dev with
     | some d => ["-D", d]
     | none => [])

/-- The `configs` list of `start_recording` (lines 84-101): with a device
string, stereo 44100/48000 then mono 44100/16000 on that device, always
followed by the default-device 44100-stereo and 16000-mono fallbacks. -/
def buildConfigs (deviceString : Option String) : List (List String) :=
  (match deviceString with
   | some d =>
       [mkArecordCmd ("44100") ("2") (some d),
        mkArecordCmd ("48000") ("2") (some d),
        mkArecordCmd ("44100") ("1") (some d),
        mkArecordCmd ("16000") ("1") (some d)]
   | none => []) ++
  [mkArecordCmd ("44100") ("2") none, mkArecordCmd ("16000") ("1") none]

/-- The `for cmd in configs:` loop with its `break` (lines 104-123): the
first command whose probe succeeds is kept. -/
def tryConfigs (ok : List String → Bool) :
    List (List String) → Option (List String)
  | [] => none
  | cmd :: rest => if ok cmd then some cmd else tryConfigs ok rest

/-- Python `int()` on a decimal-digit string. -/
def pyIntStr (s : String) : ℕ :=
  s.data.foldl (fun acc c => 10 * acc + (c.toNat - 48)) 0

/-- `int(cmd[4])` / `int(cmd[6])` recorded as
`self.actual_sample_rate` / `self.actual_channels` (lines 117-118). -/
def negotiatedFormat (ok : List String → Bool)
    (configs : List (List String)) : Option (ℕ × ℕ) :=
  match tryConfigs ok configs with
  | some cmd => some (pyIntStr (cmd.getD 4 (" ")), pyIntStr (cmd.getD 6 (" ")))
  | none => none

/-! ### Claim C4 -/

/-- C4: `start_recording` tries its prioritized candidate list in order and
selects the first configuration whose probe succeeds; when the first three
candidates fail and the fourth succeeds, the fourth (16 kHz mono on the
smart-detected device) is selected and its sample rate and channel count
are recorded exactly. -/
theorem c4_device_negotiation (dev : String) (ok : List String → Bool)
    (h1 : ok (mkArecordCmd ("44100") ("2") (some dev)) = false)
    (h2 : ok (mkArecordCmd ("48000") ("2") (some dev)) = false)
    (h3 : ok (mkArecordCmd ("44100") ("1") (some dev)) = false)
    (h4 : ok (mkArecordCmd ("16000") ("1") (some dev)) = true) :
    tryConfigs ok (buildConfigs (some dev)) =
      some (mkArecordCmd ("16000") ("1") (some dev)) ∧
    negotiatedFormat ok (buildConfigs (some dev)) = some (16000, 1) := by
  have ht : tryConfigs ok (buildConfigs (some dev)) =
      some (mkArecordCmd ("16000") ("1") (some dev)) := by
    unfold buildConfigs
    simp [tryConfigs, h1, h2, h3, h4]
  refine ⟨ht, ?_⟩
  unfold negotiatedFormat
  rw [ht]
  rfl

/-- C4 witness: a concrete device string and probe oracle under which only
the fourth candidate succeeds. -/
theorem c4_device_negotiation_witness :
    ((fun cmd => cmd == mkArecordCmd ("16000") ("1") (some ("hw:1,0")))
        (mkArecordCmd ("44100") ("2") (some ("hw:1,0"))) = false) ∧
    ((fun cmd => cmd == mkArecordCmd ("16000") ("1") (some ("hw:1,0")))
        (mkArecordCmd ("48000") ("2") (some ("hw:1,0"))) = false) ∧
    ((fun cmd => cmd == mkArecordCmd ("16000") ("1") (some ("hw:1,0")))
        (mkArecordCmd ("44100") ("1") (some ("hw:1,0"))) = false) ∧
    ((fun cmd => cmd == mkArecordCmd ("16000") ("1") (some ("hw:1,0")))
        (mkArecordCmd ("16000") ("1") (some ("hw:1,0"))) = true) ∧
    (tryConfigs (fun cmd => cmd == mkArecordCmd ("16000") ("1") (some ("hw:1,0")))
        (buildConfigs (some ("hw:1,0"))) =
      some (mkArecordCmd ("16000") ("1") (some ("hw:1,0"))) ∧
     negotiatedFormat
        (fun cmd => cmd == mkArecordCmd ("16000") ("1") (some ("hw:1,0")))
        (buildConfigs (some ("hw:1,0"))) = some (16000, 1)) :=
  ⟨by decide, by decide, by decide, by decide,
    c4_device_negotiation ("hw:1,0")
      (fun cmd => cmd == mkArecordCmd ("16000") ("1") (some ("hw:1,0")))
      (by decide) (by decide) (by decide) (by decide)⟩

/-! ## Clipboard output: `copy_to_clipboard` (whisper_toggle_gui.py)

Lines 496-519: `wl-copy` is invoked first; on `CalledProcessError` or
`FileNotFoundError`, `xclip -selection clipboard` is tried; if that also
fails, the text falls back to `type_text` (ydotool).  Every failure is
caught, so the function always returns normally. -/

/-- The external tools `copy_to_clipboard` can invoke. -/
inductive ClipTool
  | wlCopy
  | xclip
  | ydotoolType
deriving DecidableEq

/-- Success/failure of the two clipboard tools in the ambient environment
(`true` = the `subprocess.run(..., check=True)` call returns normally). -/
structure ClipboardEnv where
  wlCopyOk : Bool
  xclipOk : Bool

/-- The ordered sequence of external tool invocations performed by
`copy_to_clipboard`.  Because all exceptions are caught, the function is
total: it always produces an invocation sequence and never propagates a
fault. -/
def copy_to_clipboard (env : ClipboardEnv) : List ClipTool :=
  if env.wlCopyOk then [ClipTool.wlCopy]
  else if env.xclipOk then [ClipTool.wlCopy, ClipTool.xclip]
  else [ClipTool.wlCopy, ClipTool.xclip, ClipTool.ydotoolType]

/-! ### Claim C9 -/

/-- C9: the clipboard output method always tries the Wayland tool
(`wl-copy`) first; the X11 tool (`xclip`) is tried exactly when the Wayland
tool failed; and the text is dispatched to the `type` method (ydotool) if
and only if both clipboard tools failed.  The function is total — every
tool failure is caught, never propagated. -/
theorem c9_clipboard_fallback_chain (env : ClipboardEnv) :
    (copy_to_clipboard env).head? = some ClipTool.wlCopy ∧
    (ClipTool.xclip ∈ copy_to_clipboard env ↔ env.wlCopyOk = false) ∧
    (ClipTool.ydotoolType ∈ copy_to_clipboard env ↔
      env.wlCopyOk = false ∧ env.xclipOk = false) := by
  rcases env with ⟨wl, x⟩
  cases wl <;> cases x <;> decide

/-! ## Level classification: `try_audio_capture` (audio_test_standalone.py)

Lines 475-491: 16-bit samples are normalized by `abs(x) / 32768.0`, the
gain is applied multiplicatively, then
`rms = math.sqrt(sum(x*x for x in audio_float) / len(audio_float))` and
`peak = max(audio_float)` are computed and reported without clipping. -/

/-- `audio_float` after both list comprehensions:
`[abs(x) / 32768.0 for x in audio_samples]` then
`[x * gain for x in audio_float]`. -/
def classifyValues (samples : List ℤ) (gain : ℚ) : List ℚ :=
  (samples.map (fun x => ((|x| : ℤ) : ℚ) / 32768)).map (fun x => x * gain)

/-- Python `max` of a list (the code only calls it on nonempty chunks). -/
def pyMax : List ℚ → ℚ
  | [] => 0
  | x :: xs => xs.foldl max x

/-- `peak = max(audio_float)` (line 488). -/
def classifyPeak (samples : List ℤ) (gain : ℚ) : ℚ :=
  pyMax (classifyValues samples gain)

/-- `sum(x*x for x in audio_float) / len(audio_float)` — the argument of
`math.sqrt` on line 485; the reported RMS is its real square root. -/
def classifyMeanSq (samples : List ℤ) (gain : ℚ) : ℚ :=
  ((classifyValues samples gain).map (fun x => x * x)).sum /
    (classifyValues samples gain).length

theorem le_foldl_max (a : ℚ) (l : List ℚ) :
    a ≤ l.foldl max a ∧ ∀ x ∈ l, x ≤ l.foldl max a := by
  induction l generalizing a with
  | nil => simp
  | cons y ys ih =>
      refine ⟨le_trans (le_max_left a y) (ih (max a y)).1, ?_⟩
      intro x hx
      rcases List.mem_cons.mp hx with h | h
      · rw [h]
        exact le_trans (le_max_right a y) (ih (max a y)).1
      · exact (ih (max a y)).2 x h

theorem le_pyMax_of_mem {x : ℚ} {l : List ℚ} (h : x ∈ l) : x ≤ pyMax l := by
  cases l with
  | nil => cases h
  | cons y ys =>
      rcases List.mem_cons.mp h with h' | h'
      · subst h'
        exact (le_foldl_max x ys).1
      · exact (le_foldl_max y ys).2 x h'

/-! ### Claim C8 -/

/-- C8 (amended): the classifier normalizes by 32768, applies the gain
before aggregation, and reports `rms = sqrt(mean(x^2))` and
`peak = max(x)` over the gain-scaled values, with `rms ≤ peak` holding for
every nonempty chunk and every NONNEGATIVE gain (the claim's "every gain"
fails at negative gain, where the reported peak is negative while
`rms ≥ 0`); neither value is clipped to 1 before reporting — in particular
the concrete chunk `[16384]` at gain 4 reports peak `2`, above full
scale. -/
theorem c8_classify_rms_le_peak :
    (∀ (samples : List ℤ) (gain : ℚ), samples ≠ [] → 0 ≤ gain →
      Real.sqrt ((classifyMeanSq samples gain : ℚ) : ℝ) ≤
        ((classifyPeak samples gain : ℚ) : ℝ)) ∧
    classifyPeak [16384] 4 = 2 := by
  constructor
  · intro samples gain hne hg
    have hvals_nonneg : ∀ y ∈ classifyValues samples gain, 0 ≤ y := by
      intro y hy
      unfold classifyValues at hy
      rw [List.mem_map] at hy
      obtain ⟨z, hz, rfl⟩ := hy
      rw [List.mem_map] at hz
      obtain ⟨x, _, rfl⟩ := hz
      have : (0 : ℚ) ≤ ((|x| : ℤ) : ℚ) / 32768 := by positivity
      exact mul_nonneg this hg
    have hvne : classifyValues samples gain ≠ [] := by
      intro h
      have hlen0 : (classifyValues samples gain).length = 0 := by rw [h]; rfl
      unfold classifyValues at hlen0
      rw [List.length_map, List.length_map] at hlen0
      exact hne (List.length_eq_zero.mp hlen0)
    have hpeak0 : 0 ≤ classifyPeak samples gain := by
      obtain ⟨y, ys, hv⟩ := List.exists_cons_of_ne_nil hvne
      have hy : y ∈ classifyValues samples gain := by
        rw [hv]
        exact List.mem_cons_self y ys
      exact le_trans (hvals_nonneg y hy) (le_pyMax_of_mem hy)
    have hsq_le : ∀ z ∈ (classifyValues samples gain).map (fun x => x * x),
        z ≤ classifyPeak samples gain * classifyPeak samples gain := by
      intro z hz
      rw [List.mem_map] at hz
      obtain ⟨y, hy, rfl⟩ := hz
      exact mul_self_le_mul_self (hvals_nonneg y hy) (le_pyMax_of_mem hy)
    have hsum := List.sum_le_card_nsmul
      ((classifyValues samples gain).map (fun x => x * x))
      (classifyPeak samples gain * classifyPeak samples gain) hsq_le
    rw [List.length_map, nsmul_eq_mul] at hsum
    have hlen : 0 < ((classifyValues samples gain).length : ℚ) := by
      have := List.length_pos.mpr hvne
      exact_mod_cast this
    have hmean : classifyMeanSq samples gain ≤
        classifyPeak samples gain * classifyPeak samples gain := by
      unfold classifyMeanSq
      rw [div_le_iff₀ hlen]
      calc ((classifyValues samples gain).map (fun x => x * x)).sum
          ≤ ((classifyValues samples gain).length : ℚ) *
            (classifyPeak samples gain * classifyPeak samples gain) := hsum
        _ = (classifyPeak samples gain * classifyPeak samples gain) *
            ((classifyValues samples gain).length : ℚ) := by ring
    calc Real.sqrt ((classifyMeanSq samples gain : ℚ) : ℝ)
        ≤ Real.sqrt (((classifyPeak samples gain * classifyPeak samples gain
            : ℚ) : ℝ)) := by
          apply Real.sqrt_le_sqrt
          exact_mod_cast hmean
      _ = ((classifyPeak samples gain : ℚ) : ℝ) := by
          rw [Rat.cast_mul]
          rw [show ((classifyPeak samples gain : ℚ) : ℝ) *
              ((classifyPeak samples gain : ℚ) : ℝ) =
              ((classifyPeak samples gain : ℚ) : ℝ) ^ 2 by ring]
          rw [Real.sqrt_sq (by exact_mod_cast hpeak0)]
  · show pyMax (classifyValues [16384] 4) = 2
    norm_num [classifyValues, pyMax]

/-- C8 witness: the inequality instantiated on the chunk `[1]` at gain 1. -/
theorem c8_classify_rms_le_peak_witness :
    ([(1 : ℤ)] ≠ []) ∧ ((0 : ℚ) ≤ 1) ∧
    Real.sqrt ((classifyMeanSq [1] 1 : ℚ) : ℝ) ≤
      ((classifyPeak [1] 1 : ℚ) : ℝ) :=
  ⟨by decide, by norm_num,
    c8_classify_rms_le_peak.1 [1] 1 (by decide) (by norm_num)⟩

/-- C8 counterexample: at a negative gain — reachable through the
unvalidated `audio_gain` configuration value, though not through the dB
slider — the gain-scaled values are all nonpositive, so the reported
`peak = max(audio_float)` is negative while the reported rms is
nonnegative: for the chunk `[16384]` at gain `-1` the code reports peak
`-1/2` and rms `1/2`, falsifying both `rms ≤ peak` and
`peak = max(|x_i|)` as claimed for "every gain". -/
theorem c8_counterexample :
    classifyPeak [16384] (-1) = -(1/2) ∧
    Real.sqrt ((classifyMeanSq [16384] (-1) : ℚ) : ℝ) = 1/2 ∧
    ¬ Real.sqrt ((classifyMeanSq [16384] (-1) : ℚ) : ℝ) ≤
      ((classifyPeak [16384] (-1) : ℚ) : ℝ) := by
  have hp : classifyPeak [16384] (-1) = -(1/2) := by
    show pyMax (classifyValues [16384] (-1)) = -(1/2)
    norm_num [classifyValues, pyMax]
  have hm : classifyMeanSq [16384] (-1) = 1/4 := by
    unfold classifyMeanSq
    norm_num [classifyValues]
  have hs : Real.sqrt ((classifyMeanSq [16384] (-1) : ℚ) : ℝ) = 1/2 := by
    rw [hm]
    rw [show (((1/4 : ℚ)) : ℝ) = (1/2 : ℝ)^2 by norm_num]
    exact Real.sqrt_sq (by norm_num)
  refine ⟨hp, hs, ?_⟩
  rw [hs, hp]
  push_cast
  norm_num

/-! ## `apply_gain` (transcriber_simple.py lines 361-375)

`np.frombuffer(audio_data, dtype=np.int16)` decodes little-endian signed
16-bit samples; `samples.astype(np.float32) * gain` multiplies (modelled
exactly over ℚ); `np.clip(amplified, -32768, 32767)` clamps;
`.astype(np.int16)` truncates toward zero; `.tobytes()` re-encodes. -/

/-- Two's-complement signed interpretation of an unsigned 16-bit value. -/
def toSigned16 (v : ℕ) : ℤ :=
  if v < 32768 then (v : ℤ) else (v : ℤ) - 65536

/-- Little-endian int16 decoding of a byte list, pairwise (a trailing odd
byte cannot occur: numpy rejects buffers that are not a multiple of the
item size). -/
def decodeInt16LE : List ℕ → List ℤ
  | lo :: hi :: rest => toSigned16 (lo + 256 * hi) :: decodeInt16LE rest
  | _ => []

/-- Unsigned 16-bit two's-complement image of an in-range integer. -/
def toUnsigned16 (x : ℤ) : ℕ := (x % 65536).toNat

/-- Little-endian int16 encoding (`.astype(np.int16).tobytes()`). -/
def encodeInt16LE (xs : List ℤ) : List ℕ :=
  (xs.map (fun x => [toUnsigned16 x % 256, toUnsigned16 x / 256])).flatten

/-- `np.clip(v, -32768, 32767)`. -/
def npClip (q : ℚ) : ℚ := min 32767 (max (-32768) q)

/-- `apply_gain(self, audio_data, gain)`: decode, scale, clip, truncate to
int16, re-encode. -/
def apply_gain (audioData : List ℕ) (gain : ℚ) : List ℕ :=
  encodeInt16LE ((decodeInt16LE audioData).map
    (fun (s : ℤ) => pyInt (npClip ((s : ℚ) * gain))))

theorem toSigned16_range (v : ℕ) (h : v < 65536) :
    -32768 ≤ toSigned16 v ∧ toSigned16 v ≤ 32767 := by
  unfold toSigned16
  split <;> omega

theorem toUnsigned16_lt (x : ℤ) : toUnsigned16 x < 65536 := by
  unfold toUnsigned16
  omega

theorem toUnsigned16_toSigned16 (v : ℕ) (h : v < 65536) :
    toUnsigned16 (toSigned16 v) = v := by
  unfold toUnsigned16 toSigned16
  split <;> omega

theorem toSigned16_toUnsigned16 (x : ℤ) (h1 : -32768 ≤ x) (h2 : x ≤ 32767) :
    toSigned16 (toUnsigned16 x) = x := by
  unfold toSigned16 toUnsigned16
  split <;> omega

theorem decodeInt16LE_range : ∀ (l : List ℕ), (∀ b ∈ l, b < 256) →
    ∀ s ∈ decodeInt16LE l, -32768 ≤ s ∧ s ≤ 32767
  | [], _, s, hs => by cases hs
  | [b], _, s, hs => by cases hs
  | lo :: hi :: rest, hb, s, hs => by
      rw [show decodeInt16LE (lo :: hi :: rest) =
        toSigned16 (lo + 256 * hi) :: decodeInt16LE rest from rfl] at hs
      rcases List.mem_cons.mp hs with h | h
      · rw [h]
        refine toSigned16_range _ ?_
        have hlo := hb lo (by simp)
        have hhi := hb hi (by simp)
        omega
      · exact decodeInt16LE_range rest
          (fun b hbr => hb b (by simp [hbr])) s h

theorem decodeInt16LE_length : ∀ l : List ℕ,
    (decodeInt16LE l).length = l.length / 2
  | [] => rfl
  | [b] => by
      rw [show decodeInt16LE [b] = ([] : List ℤ) from by rfl]
      simp
  | lo :: hi :: rest => by
      rw [show decodeInt16LE (lo :: hi :: rest) =
        toSigned16 (lo + 256 * hi) :: decodeInt16LE rest from rfl]
      rw [List.length_cons, decodeInt16LE_length rest]
      simp
      omega

theorem encodeInt16LE_length (xs : List ℤ) :
    (encodeInt16LE xs).length = 2 * xs.length := by
  induction xs with
  | nil => rfl
  | cons x rest ih =>
      rw [show encodeInt16LE (x :: rest) =
        [toUnsigned16 x % 256, toUnsigned16 x / 256] ++ encodeInt16LE rest
        from rfl]
      rw [List.length_append, ih, List.length_cons]
      simp only [List.length_cons, List.length_nil]
      omega

theorem decode_encode (xs : List ℤ)
    (h : ∀ x ∈ xs, -32768 ≤ x ∧ x ≤ 32767) :
    decodeInt16LE (encodeInt16LE xs) = xs := by
  induction xs with
  | nil => rfl
  | cons x rest ih =>
      have hx := h x (List.mem_cons_self x rest)
      show decodeInt16LE (toUnsigned16 x % 256 :: toUnsigned16 x / 256 ::
        encodeInt16LE rest) = x :: rest
      rw [show decodeInt16LE (toUnsigned16 x % 256 :: toUnsigned16 x / 256 ::
        encodeInt16LE rest) = toSigned16 (toUnsigned16 x % 256 +
          256 * (toUnsigned16 x / 256)) :: decodeInt16LE (encodeInt16LE rest)
        from rfl]
      have hu := toUnsigned16_lt x
      rw [show toUnsigned16 x % 256 + 256 * (toUnsigned16 x / 256) =
        toUnsigned16 x by omega]
      rw [toSigned16_toUnsigned16 x hx.1 hx.2,
        ih (fun y hy => h y (List.mem_cons_of_mem x hy))]

theorem encode_decode : ∀ (l : List ℕ), (∀ b ∈ l, b < 256) →
    l.length % 2 = 0 → encodeInt16LE (decodeInt16LE l) = l
  | [], _, _ => rfl
  | [b], _, hlen => by simp at hlen
  | lo :: hi :: rest, hb, hlen => by
      have hlo := hb lo (by simp)
      have hhi := hb hi (by simp)
      have hv : lo + 256 * hi < 65536 := by omega
      rw [show decodeInt16LE (lo :: hi :: rest) =
        toSigned16 (lo + 256 * hi) :: decodeInt16LE rest from rfl]
      show toUnsigned16 (toSigned16 (lo + 256 * hi)) % 256 ::
        toUnsigned16 (toSigned16 (lo + 256 * hi)) / 256 ::
        encodeInt16LE (decodeInt16LE rest) = lo :: hi :: rest
      rw [toUnsigned16_toSigned16 _ hv]
      rw [show (lo + 256 * hi) % 256 = lo by omega,
        show (lo + 256 * hi) / 256 = hi by omega]
      rw [encode_decode rest (fun b hbr => hb b (by simp [hbr])) (by
        rw [List.length_cons, List.length_cons] at hlen
        omega)]

theorem pyInt_npClip_range (q : ℚ) :
    -32768 ≤ pyInt (npClip q) ∧ pyInt (npClip q) ≤ 32767 := by
  have hlo : (-32768 : ℚ) ≤ npClip q := by
    unfold npClip
    exact le_min (by norm_num) (le_max_left _ _)
  have hhi : npClip q ≤ 32767 := min_le_left _ _
  unfold pyInt
  by_cases h : (0 : ℚ) ≤ npClip q
  · rw [if_pos h]
    constructor
    · have h0 : (0 : ℤ) ≤ ⌊npClip q⌋ := Int.le_floor.mpr (by exact_mod_cast h)
      omega
    · have : ⌊npClip q⌋ ≤ ⌊(32767 : ℚ)⌋ := Int.floor_le_floor hhi
      simpa using this
  · rw [if_neg h]
    push_neg at h
    constructor
    · have : ⌊-npClip q⌋ ≤ ⌊(32768 : ℚ)⌋ :=
        Int.floor_le_floor (by linarith)
      have h32 : ⌊(32768 : ℚ)⌋ = 32768 := by norm_num
      omega
    · have : (0 : ℤ) ≤ ⌊-npClip q⌋ :=
        Int.le_floor.mpr (by push_cast; linarith)
      omega

theorem pyInt_npClip_gain_one (s : ℤ) (h1 : -32768 ≤ s) (h2 : s ≤ 32767) :
    pyInt (npClip ((s : ℚ) * 1)) = s := by
  rw [mul_one]
  have hc : npClip ((s : ℚ)) = (s : ℚ) := by
    unfold npClip
    rw [max_eq_right (by exact_mod_cast h1), min_eq_right (by exact_mod_cast h2)]
  rw [hc, pyInt_intCast]

/-! ### Claim C10 -/

/-- C10 (amended): for every even-length byte string of 16-bit signed
little-endian samples and every gain, `apply_gain` returns a byte string of
the same length whose samples are `int16(np.clip(s * gain, -32768, 32767))`
— the product clamped to `[-32768, 32767]` and then TRUNCATED toward zero
to an integer; every output sample stays in the int16 range, so no
two's-complement wraparound ever occurs; and with gain `1.0` the byte
string is returned bit-identical. -/
theorem c10_apply_gain_clamped (audioData : List ℕ) (gain : ℚ)
    (hbytes : ∀ b ∈ audioData, b < 256) (heven : audioData.length % 2 = 0) :
    (apply_gain audioData gain).length = audioData.length ∧
    decodeInt16LE (apply_gain audioData gain) =
      (decodeInt16LE audioData).map
        (fun (s : ℤ) => pyInt (npClip ((s : ℚ) * gain))) ∧
    (∀ s ∈ decodeInt16LE (apply_gain audioData gain),
      -32768 ≤ s ∧ s ≤ 32767) ∧
    apply_gain audioData 1 = audioData := by
  have hrange : ∀ x ∈ (decodeInt16LE audioData).map
      (fun (s : ℤ) => pyInt (npClip ((s : ℚ) * gain))),
      -32768 ≤ x ∧ x ≤ 32767 := by
    intro x hx
    rw [List.mem_map] at hx
    obtain ⟨s, _, rfl⟩ := hx
    exact pyInt_npClip_range _
  refine ⟨?_, ?_, ?_, ?_⟩
  · unfold apply_gain
    rw [encodeInt16LE_length, List.length_map, decodeInt16LE_length]
    omega
  · unfold apply_gain
    exact decode_encode _ hrange
  · unfold apply_gain
    rw [decode_encode _ hrange]
    exact hrange
  · unfold apply_gain
    have hid : (decodeInt16LE audioData).map
        (fun (s : ℤ) => pyInt (npClip ((s : ℚ) * 1))) = decodeInt16LE audioData := by
      rw [List.map_congr_left (fun s hs => by
        have hr := decodeInt16LE_range audioData hbytes s hs
        exact pyInt_npClip_gain_one s hr.1 hr.2)]
      exact List.map_id _
    rw [hid]
    exact encode_decode audioData hbytes heven

/-- C10 witness: the amended theorem at the concrete byte string `[3, 0]`
(the single sample 3) and gain `3/2`. -/
theorem c10_apply_gain_clamped_witness :
    (∀ b ∈ [3, 0], b < 256) ∧ ([3, 0] : List ℕ).length % 2 = 0 ∧
    ((apply_gain [3, 0] (3/2)).length = ([3, 0] : List ℕ).length ∧
     decodeInt16LE (apply_gain [3, 0] (3/2)) =
       (decodeInt16LE [3, 0]).map
         (fun (s : ℤ) => pyInt (npClip ((s : ℚ) * (3/2)))) ∧
     (∀ s ∈ decodeInt16LE (apply_gain [3, 0] (3/2)),
       -32768 ≤ s ∧ s ≤ 32767) ∧
     apply_gain [3, 0] 1 = [3, 0]) :=
  ⟨by decide, by decide,
    c10_apply_gain_clamped [3, 0] (3/2) (by decide) (by decide)⟩

/-- C10 counterexample: for the single sample 3 (bytes `[3, 0]`) at gain
`1.5`, the code outputs the sample `4 = int16(np.clip(4.5))`, which does
not equal the claim's "input sample times the gain, clamped" — that value
is `4.5`, not an int16 value at all. -/
theorem c10_counterexample :
    decodeInt16LE (apply_gain [3, 0] (3/2)) = [4] ∧
    ((4 : ℚ) ≠ npClip ((3 : ℚ) * (3/2))) := by
  have h1 : decodeInt16LE [3, 0] = [(3 : ℤ)] := by
    rw [show decodeInt16LE [3, 0] =
      toSigned16 (3 + 256 * 0) :: decodeInt16LE [] from rfl]
    rw [show decodeInt16LE [] = [] from rfl]
    unfold toSigned16
    norm_num
  have hnp : npClip (((3 : ℤ) : ℚ) * (3/2)) = 9/2 := by
    unfold npClip
    rw [max_eq_right (by norm_num), min_eq_right (by norm_num)]
    norm_num
  have h2 : pyInt (npClip (((3 : ℤ) : ℚ) * (3/2))) = 4 := by
    rw [hnp]
    unfold pyInt
    rw [if_pos (by norm_num)]
    rw [show (9/2 : ℚ) = ((9 : ℕ) : ℚ) / ((2 : ℕ) : ℚ) by push_cast; ring]
    rw [Rat.floor_natCast_div_natCast]
    norm_num
  constructor
  · unfold apply_gain
    rw [h1]
    rw [show ([(3 : ℤ)]).map (fun (s : ℤ) => pyInt (npClip ((s : ℚ) * (3/2)))) =
      [pyInt (npClip (((3 : ℤ) : ℚ) * (3/2)))] from rfl]
    rw [h2]
    refine decode_encode [4] ?_
    intro x hx
    rw [List.mem_singleton] at hx
    rw [hx]
    norm_num
  · have : npClip ((3 : ℚ) * (3/2)) = 9/2 := by
      unfold npClip
      rw [max_eq_right (by norm_num), min_eq_right (by norm_num)]
      norm_num
    rw [this]
    norm_num

/-! ## Continuous-mode overlap deduplication
(`_continuous_processing_loop` / `process_recent`, whisper_toggle_gui.py
lines 418-477)

Text is modelled at the character level (`List Char`); `str.split()`,
`str.strip()`, `" ".join`, `startswith`, slicing and the `in` substring
test are embedded below with Python semantics. -/

/-- Python `str.split()` accumulator: split on whitespace runs, producing
no empty words. -/
def pySplitAux : List Char → List Char → List (List Char)
  | [], acc => if acc = [] then [] else [acc.reverse]
  | c :: rest, acc =>
    if c.isWhitespace then
      if acc = [] then pySplitAux rest [] else acc.reverse :: pySplitAux rest []
    else pySplitAux rest (c :: acc)

/-- Python `str.split()`. -/
def pySplit (s : List Char) : List (List Char) := pySplitAux s []

/-- Python `str.strip()`. -/
def pyStrip (s : List Char) : List Char :=
  ((s.dropWhile Char.isWhitespace).reverse.dropWhile Char.isWhitespace).reverse

/-- `" ".join(ws)`. -/
def joinSpace (ws : List (List Char)) : List Char :=
  List.intercalate [' '] ws

/-- Python `needle in haystack` for strings: contiguous substring test. -/
def isSubstringOf (needle : List Char) : List Char → Bool
  | [] => needle.isPrefixOf []
  | c :: rest => needle.isPrefixOf (c :: rest) || isSubstringOf needle rest

/-- The candidate overlap at loop index `i`:
`" ".join(words_old[-i-1:]) if i > 0 else words_old[-1]` (line 455; the two
branches coincide, as `" ".join` of a one-word list is that word). -/
def suffixAt (wordsOld : List (List Char)) (i : ℕ) : List Char :=
  joinSpace (wordsOld.drop (wordsOld.length - (i + 1)))

/-- The `for i in range(min(10, len(words_old)))` search with its `break`
(lines 454-460): starting at index `start` with `fuel` iterations left,
return the first candidate suffix that `text.startswith`. -/
def findOverlap (wordsOld : List (List Char)) (text : List Char) :
    ℕ → ℕ → Option (List Char)
  | _, 0 => none
  | i, fuel + 1 =>
    if (suffixAt wordsOld i).isPrefixOf text then some (suffixAt wordsOld i)
    else findOverlap wordsOld text (i + 1) fuel

/-- One round of `process_recent` (lines 440-475) on dedup state
`lastTranscription` and raw transcription result `rawText`: the emitted
text (`none` when nothing is typed).  Mirrors the code: strip; skip empty;
if there is previous text, remove the first (shortest) matching word-suffix
and re-strip, or — only when no suffix matched — suppress the text if it is
a substring of the previous text; emit only non-empty remainders. -/
def processNewText (lastTranscription rawText : List Char) :
    Option (List Char) :=
  if pyStrip rawText = [] then none
  else if lastTranscription = [] then some (pyStrip rawText)
  else
    match findOverlap (pySplit lastTranscription) (pyStrip rawText) 0
        (min 10 (pySplit lastTranscription).length) with
    | some sfx =>
        if pyStrip ((pyStrip rawText).drop sfx.length) = [] then none
        else some (pyStrip ((pyStrip rawText).drop sfx.length))
    | none =>
        if isSubstringOf (pyStrip rawText) lastTranscription then none
        else some (pyStrip rawText)

/-- The overlap rule as the CLAIM states it, for comparison: nothing is
emitted whenever the whole new text is contained in the previously emitted
text; otherwise the LONGEST word-suffix of the previous text (looking back
at most 10 words) that is a prefix of the new text is removed. -/
def dedupClaimSpec (lastTranscription rawText : List Char) :
    Option (List Char) :=
  if pyStrip rawText = [] then none
  else if lastTranscription = [] then some (pyStrip rawText)
  else if isSubstringOf (pyStrip rawText) lastTranscription then none
  else
    match (((List.range (min 10 (pySplit lastTranscription).length)).map
        (suffixAt (pySplit lastTranscription))).filter
        (fun sfx => sfx.isPrefixOf (pyStrip rawText))).getLast? with
    | some sfx =>
        if pyStrip ((pyStrip rawText).drop sfx.length) = [] then none
        else some (pyStrip ((pyStrip rawText).drop sfx.length))
    | none => some (pyStrip rawText)

/-! ### The first-match behaviour of the search loop -/

theorem findOverlap_first_match (wordsOld : List (List Char))
    (text : List Char) :
    ∀ (fuel start i : ℕ), start ≤ i → i < start + fuel →
      (suffixAt wordsOld i).isPrefixOf text = true →
      (∀ j, start ≤ j → j < i →
        (suffixAt wordsOld j).isPrefixOf text = false) →
      findOverlap wordsOld text start fuel = some (suffixAt wordsOld i) := by
  intro fuel
  induction fuel with
  | zero =>
      intro start i h1 h2 _ _
      omega
  | succ f ih =>
      intro start i h1 h2 hm hmin
      unfold findOverlap
      by_cases hs : (suffixAt wordsOld start).isPrefixOf text = true
      · rw [if_pos hs]
        rcases eq_or_lt_of_le h1 with he | hl
        · rw [he]
        · exact absurd hs (by rw [hmin start le_rfl hl]; simp)
      · rw [if_neg hs]
        rcases eq_or_lt_of_le h1 with he | hl
        · subst he
          exact absurd hm hs
        · exact ih (start + 1) i (by omega) (by omega) hm
            (fun j hj1 hj2 => hmin j (by omega) hj2)

theorem findOverlap_no_match (wordsOld : List (List Char))
    (text : List Char) :
    ∀ (fuel start : ℕ),
      (∀ j, start ≤ j → j < start + fuel →
        (suffixAt wordsOld j).isPrefixOf text = false) →
      findOverlap wordsOld text start fuel = none := by
  intro fuel
  induction fuel with
  | zero => intro start _; rfl
  | succ f ih =>
      intro start h
      unfold findOverlap
      rw [if_neg (by rw [h start le_rfl (by omega)]; simp)]
      exact ih (start + 1) (fun j hj1 hj2 => h j (by omega) (by omega))

/-! ### Claim C2 -/

/-- C2 (amended): the dedup loop searches word-suffixes of the previously
emitted text from the SHORTEST (1 word) outward, up to 10 words back, and
removes the FIRST — i.e. the shortest — suffix that is a string prefix of
the new text, re-stripping the remainder and emitting it only if nonempty;
the substring-suppression check ("whole new text already contained")
applies ONLY when no suffix matched.  The spec's concrete example still
holds: with previous text "the quick brown" and new text "brown fox jumps"
the emitted remainder is "fox jumps". -/
theorem c2_overlap_dedup :
    processNewText (("the quick brown").toList) (("brown fox jumps").toList) =
      some (("fox jumps").toList) ∧
    (∀ (lastT text : List Char) (i : ℕ),
      lastT ≠ [] → pyStrip text = text → text ≠ [] →
      i < min 10 (pySplit lastT).length →
      (suffixAt (pySplit lastT) i).isPrefixOf text = true →
      (∀ j, j < i → (suffixAt (pySplit lastT) j).isPrefixOf text = false) →
      processNewText lastT text =
        (if pyStrip (text.drop (suffixAt (pySplit lastT) i).length) = []
         then none
         else some (pyStrip (text.drop (suffixAt (pySplit lastT) i).length)))) ∧
    (∀ (lastT text : List Char),
      lastT ≠ [] → pyStrip text = text → text ≠ [] →
      (∀ j, j < min 10 (pySplit lastT).length →
        (suffixAt (pySplit lastT) j).isPrefixOf text = false) →
      processNewText lastT text =
        (if isSubstringOf text lastT then none else some text)) := by
  refine ⟨by decide, ?_, ?_⟩
  · intro lastT text i hlast hstrip htext hi hm hmin
    unfold processNewText
    rw [hstrip, if_neg htext, if_neg hlast]
    rw [findOverlap_first_match (pySplit lastT) text
      (min 10 (pySplit lastT).length) 0 i (by omega) (by omega) hm
      (fun j _ hj => hmin j hj)]
  · intro lastT text hlast hstrip htext hnone
    unfold processNewText
    rw [hstrip, if_neg htext, if_neg hlast]
    rw [findOverlap_no_match (pySplit lastT) text
      (min 10 (pySplit lastT).length) 0 (fun j _ hj => hnone j (by omega))]

/-- C2 witness: the shortest-match characterization instantiated on the
spec's own example at loop index 0 (the one-word suffix "brown"). -/
theorem c2_overlap_dedup_witness :
    (("the quick brown").toList ≠ []) ∧
    pyStrip (("brown fox jumps").toList) = ("brown fox jumps").toList ∧
    (("brown fox jumps").toList ≠ []) ∧
    0 < min 10 (pySplit (("the quick brown").toList)).length ∧
    (suffixAt (pySplit (("the quick brown").toList)) 0).isPrefixOf
      (("brown fox jumps").toList) = true ∧
    processNewText (("the quick brown").toList)
        (("brown fox jumps").toList) =
      (if pyStrip ((("brown fox jumps").toList).drop
          (suffixAt (pySplit (("the quick brown").toList)) 0).length) = []
       then none
       else some (pyStrip ((("brown fox jumps").toList).drop
          (suffixAt (pySplit (("the quick brown").toList)) 0).length))) :=
  ⟨by decide, by decide, by decide, by decide, by decide,
    c2_overlap_dedup.2.1 (("the quick brown").toList)
      (("brown fox jumps").toList) 0 (by decide) (by decide) (by decide)
      (by decide) (by decide) (fun j hj => absurd hj (Nat.not_lt_zero j))⟩

/-- C2 counterexample: (1) with previous text "a b a b" and new text
"b a b c" the code removes the SHORTEST matching suffix "b" and emits
"a b c", while the claim's longest-suffix rule ("b a b") would emit "c";
(2) with previous text "a c a" and new text "a c" — wholly contained in
the previous text — the code still emits "c" (the suffix "a" matched
first, so the containment check never runs), while the claim says nothing
is emitted. -/
theorem c2_counterexample :
    processNewText (("a b a b").toList) (("b a b c").toList) =
      some (("a b c").toList) ∧
    dedupClaimSpec (("a b a b").toList) (("b a b c").toList) =
      some (("c").toList) ∧
    processNewText (("a c a").toList) (("a c").toList) =
      some (("c").toList) ∧
    isSubstringOf (("a c").toList) (("a c a").toList) = true ∧
    dedupClaimSpec (("a c a").toList) (("a c").toList) = none := by
  refine ⟨?_, ?_, ?_, ?_, ?_⟩ <;> decide
